import Mathlib

/-!
Shallow embedding of the direct-message subsystem of
`src/server/routes/directMessages.js` (Express route handlers over a
message collection, plus the message-body codec built from gzip,
AES-256-CBC and hex serialization).

Modelling conventions:
* Bytes are `Nat` (with `< 256` where it matters); byte strings are
  `List Nat`.
* The wire string (`hex(iv) + ":" + hex(ciphertext)`) is a `List Char`.
* The external primitives `zlib.gzipSync`/`zlib.gunzipSync` and the
  AES-256-CBC encrypt/decrypt provided by `crypto.createCipheriv` /
  `crypto.createDecipheriv` are parameters of the codec definitions;
  their inversion properties are hypotheses of the round-trip theorem.
* `Buffer.from(s, 'hex')` is modelled with Node's documented semantics:
  hex digits are consumed two at a time and decoding stops at the first
  pair that is not two hex digits (a trailing odd digit is dropped).
* Route handlers are pure functions from the request data and the
  message store to the new store and a response value; MongoDB query
  operators (`find`, `findOne`, `countDocuments`, `updateMany`,
  `deleteMany`, `deleteOne`, `$addToSet`, `$ne` on an array field) are
  modelled by the corresponding list operations.
-/

namespace DirectMessages

/-! ## Hex serialization (Node `Buffer` hex semantics) -/

/-- Value of one hex digit, as accepted by Node hex decoding
(`0-9`, `a-f`, `A-F`). -/
def hexDigitVal (c : Char) : Option Nat :=
  if '0' ≤ c ∧ c ≤ '9' then some (c.toNat - '0'.toNat)
  else if 'a' ≤ c ∧ c ≤ 'f' then some (c.toNat - 'a'.toNat + 10)
  else if 'A' ≤ c ∧ c ≤ 'F' then some (c.toNat - 'A'.toNat + 10)
  else none

/-- Lower-case hex digit for a value `< 16`, as produced by
`Buffer.prototype.toString('hex')`. -/
def toHexDigit (n : Nat) : Char :=
  if n < 10 then Char.ofNat ('0'.toNat + n)
  else Char.ofNat ('a'.toNat + (n - 10))

/-- `buffer.toString('hex')`: two lower-case hex digits per byte. -/
def hexEncode : List Nat → List Char
  | [] => []
  | b :: bs => toHexDigit (b / 16 % 16) :: toHexDigit (b % 16) :: hexEncode bs

/-- `Buffer.from(s, 'hex')`: consume pairs of hex digits, stopping at the
first pair that is not two valid hex digits (Node truncates instead of
throwing; a trailing lone digit is likewise dropped). -/
def hexDecode : List Char → List Nat
  | c1 :: c2 :: rest =>
    match hexDigitVal c1, hexDigitVal c2 with
    | some h, some l => (16 * h + l) :: hexDecode rest
    | _, _ => []
  | _ => []

/-! ## `String.prototype.split(':')` -/

/-- JS `s.split(':')` on a character list: always returns at least one
(possibly empty) part; a separator at either end produces an empty part. -/
def splitColon : List Char → List (List Char)
  | [] => [[]]
  | c :: rest =>
    if c = ':' then [] :: splitColon rest
    else
      match splitColon rest with
      | [] => [[c]]
      | p :: ps => (c :: p) :: ps

/-! ## Key provider (`getEncryptionKey`, lines 10-39)

The two module-level mutable bindings `ENCRYPTION_KEY` and
`keyWarningShown` become an explicit state record; `process.env
.MESSAGE_ENCRYPTION_KEY` becomes an `Option (List Char)` parameter. A JS
`Buffer` object is always truthy (even when empty), so the memo test
`if (ENCRYPTION_KEY) return ENCRYPTION_KEY` is `key?.isSome`. -/

structure KeyState where
  key? : Option (List Nat)
  keyWarningShown : Bool
  deriving Repr, DecidableEq

/-- Initial module state: `ENCRYPTION_KEY = null`, `keyWarningShown = false`. -/
def initialKeyState : KeyState := ⟨none, false⟩

/-- The hard-coded development fallback key
`'0123456789abcdef...'` (hex), 32 bytes. -/
def defaultKey : List Nat :=
  hexDecode
    ("0123456789abcdef0123456789abcdef0123456789abcdef0123456789abcdef".toList)

/-- `getEncryptionKey()`. Returns the resolved key or the thrown error
(`Invalid encryption key length`), together with the new module state.
Note the source assigns `ENCRYPTION_KEY = Buffer.from(env, 'hex')`
*before* the length check, so the state keeps the decoded key even on the
throwing path. -/
def getEncryptionKey (env : Option (List Char)) (st : KeyState) :
    Except Unit (List Nat) × KeyState :=
  match st.key? with
  | some k => (.ok k, st)
  | none =>
    match env with
    | some hexStr =>
      let k := hexDecode hexStr
      if k.length ≠ 32 then (.error (), { st with key? := some k })
      else (.ok k, { st with key? := some k })
    | none =>
      (.ok defaultKey, { key? := some defaultKey, keyWarningShown := true })

/-! ## Codec (`encryptMessage` / `decryptMessage`, lines 43-81)

`gz`/`gunz` stand for `zlib.gzipSync`/`zlib.gunzipSync` (gunzip fails on
data that is not a valid gzip stream); `aesEnc`/`aesDec` stand for the
AES-256-CBC encryption/decryption provided by `crypto` (decryption fails
on bad padding or length). `crypto.createDecipheriv('aes-256-cbc', ..)`
throws when the IV is not 16 bytes, which is the only shape check the
cipher layer adds before `aesDec` runs. -/

/-- Errors a `decryptMessage` call can raise internally (the source
collapses them all into one generic thrown `Failed to decrypt message`;
the constructors record which step raised). -/
inductive DecryptError where
  | format
  | badIV
  | decrypt
  | decompress
  deriving Repr, DecidableEq

/-- `encryptMessage(text)` with the random 16-byte IV made an explicit
parameter: `hex(iv) + ':' + hex(aesEnc(key, iv, gzip(text)))`. -/
def encryptMessage (gz : String → List Nat)
    (aesEnc : List Nat → List Nat → List Nat → List Nat)
    (key iv : List Nat) (text : String) : List Char :=
  hexEncode iv ++ ':' :: hexEncode (aesEnc key iv (gz text))

/-- `decryptMessage(encryptedText)`: split on `:` (exactly two parts or
an `Invalid encrypted message format` throw), hex-decode both parts,
decrypt (after `createDecipheriv`'s 16-byte IV check), gunzip. -/
def decryptMessage (gunz : List Nat → Except Unit String)
    (aesDec : List Nat → List Nat → List Nat → Except Unit (List Nat))
    (key : List Nat) (encryptedText : List Char) :
    Except DecryptError String :=
  match splitColon encryptedText with
  | [ivHex, encHex] =>
    let iv := hexDecode ivHex
    let encrypted := hexDecode encHex
    if iv.length = 16 then
      match aesDec key iv encrypted with
      | .error _ => .error .decrypt
      | .ok decrypted =>
        match gunz decrypted with
        | .error _ => .error .decompress
        | .ok decompressed => .ok decompressed
    else .error .badIV
  | _ => .error .format

/-! ## Data model

`Message` and `User` documents (only the fields the direct-message routes
touch); ObjectIds are `Nat`. The store is the `Message` collection as a
list; the `User` collection is a list of users, and `populate`/`findById`
is `find?` on it (a dangling reference populates to `none`, the model of
Mongoose populating a deleted user as `null`). -/

inductive MType where
  | direct
  | team
  deriving Repr, DecidableEq

structure User where
  id : Nat
  name : String
  email : String
  role : String
  deriving Repr, DecidableEq

structure Msg where
  id : Nat
  messageType : MType
  userId : Nat
  recipientId : Nat
  text : List Char
  timestamp : Nat
  readBy : List Nat
  edited : Bool
  editedAt : Option Nat
  deriving Repr, DecidableEq

/-- `User.findById` / a populated user reference. -/
def findUser (users : List User) (i : Nat) : Option User :=
  users.find? (fun u => u.id == i)

/-- Sort-descending relation used for `.sort({ timestamp: -1 })`. -/
def tsDesc (a b : Msg) : Prop := b.timestamp ≤ a.timestamp

/-- Sort-ascending relation used for `.sort({ timestamp: 1 })`. -/
def tsAsc (a b : Msg) : Prop := a.timestamp ≤ b.timestamp

instance : DecidableRel tsDesc := fun a b => Nat.decLe _ _

instance : DecidableRel tsAsc := fun a b => Nat.decLe _ _

instance : IsTotal Msg tsDesc := ⟨fun a b => Nat.le_total b.timestamp a.timestamp⟩

instance : IsTotal Msg tsAsc := ⟨fun a b => Nat.le_total a.timestamp b.timestamp⟩

instance : IsTrans Msg tsDesc := ⟨fun _ _ _ h1 h2 => Nat.le_trans h2 h1⟩

instance : IsTrans Msg tsAsc := ⟨fun _ _ _ h1 h2 => Nat.le_trans h1 h2⟩

/-! ## GET /conversations (lines 99-158) -/

/-- Filter of the `Message.find` on lines 105-111: direct messages where
the requester is sender or recipient. -/
def involvesUser (uid : Nat) (m : Msg) : Bool :=
  m.messageType == MType.direct && (m.userId == uid || m.recipientId == uid)

/-- The `countDocuments` on lines 128-133: direct messages from `fromId`
to `toId` whose `readBy` does not contain `toId` (`$ne` on an array). -/
def unreadFromTo (store : List Msg) (fromId toId : Nat) : Nat :=
  (store.filter (fun m =>
    m.messageType == MType.direct && m.userId == fromId &&
      m.recipientId == toId && !(m.readBy.contains toId))).length

/-- The id the loop groups a message under: `msg.recipientId` when the
requester sent it, else `msg.userId` (line 120-122, at the id level). -/
def counterpartId (uid : Nat) (m : Msg) : Nat :=
  if m.userId = uid then m.recipientId else m.userId

structure ConversationSummary where
  user : User
  lastText : List Char
  lastTimestamp : Nat
  fromMe : Bool
  unreadCount : Nat
  deriving Repr, DecidableEq

/-- The `for (const msg of messages)` loop of lines 119-150. `seen` is the
key set of `conversationsMap`; insertion order of the map is emission
order of `Array.from(map.values())`. `.error ()` models the `TypeError`
thrown when a populated user reference is `null` (line 120 dereferences
`msg.userId._id`, line 124 dereferences `otherUser._id`), which escapes
to the catch-all and produces the HTTP 500 response. -/
def convLoop (uid : Nat) (users : List User) (store : List Msg)
    (seen : List Nat) : List Msg → Except Unit (List ConversationSummary)
  | [] => .ok []
  | m :: rest =>
    match findUser users m.userId with
    | none => .error ()
    | some sender =>
      match (if sender.id == uid then findUser users m.recipientId
             else some sender) with
      | none => .error ()
      | some other =>
        if seen.contains other.id then convLoop uid users store seen rest
        else
          match convLoop uid users store (other.id :: seen) rest with
          | .error e => .error e
          | .ok tail =>
            .ok ({ user := other
                   lastText := m.text
                   lastTimestamp := m.timestamp
                   fromMe := sender.id == uid
                   unreadCount := unreadFromTo store other.id uid } :: tail)

/-- The GET `/conversations` handler: fetch the requester's direct
messages newest-first, fold them into per-counterpart summaries. The
store is returned unchanged (the handler performs no writes). -/
def getConversations (uid : Nat) (users : List User) (store : List Msg) :
    List Msg × Except Unit (List ConversationSummary) :=
  (store,
   convLoop uid users store []
     (List.insertionSort tsDesc (store.filter (involvesUser uid))))

/-! ## GET /:userId (lines 160-211) -/

/-- Filter of the `Message.find` on lines 173-179: the direct thread
between two users, both directions. -/
def betweenUsers (a b : Nat) (m : Msg) : Bool :=
  m.messageType == MType.direct &&
    ((m.userId == a && m.recipientId == b) ||
     (m.userId == b && m.recipientId == a))

/-- The literal placeholder substituted on a decryption failure
(line 200). -/
def decryptionFailedPlaceholder : String :=
  "[Encrypted message - decryption failed]"

structure ThreadMsg where
  id : Nat
  text : String
  senderId : Nat
  timestamp : Nat
  readBy : List Nat
  edited : Bool
  editedAt : Option Nat
  isFromCurrentUser : Bool
  deriving Repr, DecidableEq

/-- The `messages.map` of lines 184-204: decrypt each message in its own
try/catch, substituting `decryptionFailedPlaceholder` when `dec` fails.
`.error ()` models the `TypeError` on a `null` populated sender
(`msg.userId._id`, lines 194 and 201), which escapes to the catch-all. -/
def threadMap (dec : List Char → Except DecryptError String) (uid : Nat)
    (users : List User) : List Msg → Except Unit (List ThreadMsg)
  | [] => .ok []
  | m :: rest =>
    match findUser users m.userId with
    | none => .error ()
    | some sender =>
      match threadMap dec uid users rest with
      | .error e => .error e
      | .ok tail =>
        match dec m.text with
        | .ok plain =>
          .ok ({ id := m.id, text := plain, senderId := sender.id
                 timestamp := m.timestamp, readBy := m.readBy
                 edited := m.edited, editedAt := m.editedAt
                 isFromCurrentUser := sender.id == uid } :: tail)
        | .error _ =>
          .ok ({ id := m.id, text := decryptionFailedPlaceholder
                 senderId := sender.id
                 timestamp := m.timestamp, readBy := m.readBy
                 edited := m.edited, editedAt := m.editedAt
                 isFromCurrentUser := sender.id == uid } :: tail)

inductive GetThreadResult where
  | userNotFound
  | failure
  | success (messages : List ThreadMsg) (otherUser : User)
  deriving Repr, DecidableEq

/-- The GET `/:userId` handler: 404 when the other user does not exist,
else the thread sorted oldest-first with each message decrypted
independently. The store is returned unchanged (no writes). -/
def getThread (dec : List Char → Except DecryptError String)
    (uid otherId : Nat) (users : List User) (store : List Msg) :
    List Msg × GetThreadResult :=
  (store,
   match findUser users otherId with
   | none => .userNotFound
   | some otherUser =>
     match threadMap dec uid users
         (List.insertionSort tsAsc (store.filter (betweenUsers uid otherId))) with
     | .error _ => .failure
     | .ok msgs => .success msgs otherUser)

/-- Derived form of one `messages.map` entry (lines 185-203), as a
function of that message alone: the entry's `text` is the decryption
when `dec` succeeds and the placeholder when it fails, and every other
field comes from the stored document. The `none` branch is junk (the
handler would have thrown; `threadMap` never consults it). -/
def threadEntry (dec : List Char → Except DecryptError String) (uid : Nat)
    (users : List User) (m : Msg) : ThreadMsg :=
  let senderId := match findUser users m.userId with
    | some sender => sender.id
    | none => m.userId
  { id := m.id
    text := match dec m.text with
      | .ok plain => plain
      | .error _ => decryptionFailedPlaceholder
    senderId := senderId
    timestamp := m.timestamp, readBy := m.readBy
    edited := m.edited, editedAt := m.editedAt
    isFromCurrentUser := senderId == uid }

/-! ## The spec's wire-format grammar (§6)

`isHexString`/`wireFormatted` are written from the spec's words — ASCII
`<32-hex-char-iv>:<hex-ciphertext>` — not from the source; they exist to
compare the codec's output against that grammar. -/

def isHexString (s : List Char) : Bool :=
  s.all (fun c => (hexDigitVal c).isSome)

def wireFormatted (s : List Char) : Bool :=
  match splitColon s with
  | [ivHex, ctHex] =>
    ivHex.length == 32 && isHexString ivHex && isHexString ctHex
  | _ => false

/-! ## POST /:userId (lines 213-258) -/

/-- `text.trim()`: drop leading and trailing whitespace (the JS trim;
the exact whitespace class does not matter for the claims). -/
def jsTrim (s : String) : String :=
  String.mk
    (((s.toList.dropWhile Char.isWhitespace).reverse.dropWhile
        Char.isWhitespace).reverse)

inductive SendResult where
  | validationError
  | recipientNotFound
  | created (echoText : String) (message : Msg)
  deriving Repr, DecidableEq

/-- The document built and saved on lines 234-242: encrypted trimmed
text, the sender already in `readBy`. -/
def sentMessage (enc : String → List Char) (uid recipientId : Nat)
    (text : String) (newId now : Nat) : Msg :=
  { id := newId, messageType := .direct, userId := uid
    recipientId := recipientId, text := enc (jsTrim text)
    timestamp := now, readBy := [uid]
    edited := false, editedAt := none }

/-- The POST `/:userId` handler. `text?` is `req.body.text` (`none` for a
missing field); `newId`/`now` are the id and timestamp the store assigns
to the new document. The 201 response carries the stored document with
its `text` replaced by the trimmed original input (line 250: return
unencrypted for the sender; the stored ciphertext is never re-decrypted —
the handler does not call `decryptMessage` at all). -/
def postMessage (enc : String → List Char) (uid recipientId : Nat)
    (users : List User) (text? : Option String) (newId now : Nat)
    (store : List Msg) : List Msg × SendResult :=
  match text? with
  | none => (store, .validationError)
  | some text =>
    if jsTrim text = "" then (store, .validationError)
    else
      match findUser users recipientId with
      | none => (store, .recipientNotFound)
      | some _ =>
        let message := sentMessage enc uid recipientId text newId now
        (store ++ [message], .created (jsTrim text) message)

/-! ## PATCH /:userId/read (lines 260-287) -/

/-- The `updateMany` filter of lines 268-273. -/
def markReadFilter (uid otherId : Nat) (m : Msg) : Bool :=
  m.messageType == MType.direct && m.userId == otherId &&
    m.recipientId == uid && !(m.readBy.contains uid)

/-- `$addToSet`: append if absent. -/
def addToSet (x : Nat) (l : List Nat) : List Nat :=
  if l.contains x then l else l ++ [x]

/-- The PATCH `/:userId/read` handler: add the requester to `readBy` of
every matching message; the reported `markedCount` is the update's
`modifiedCount` (every matched document lacks the requester in `readBy`,
so every matched document is modified). -/
def patchMarkRead (uid otherId : Nat) (store : List Msg) :
    List Msg × Nat :=
  (store.map (fun m =>
     if markReadFilter uid otherId m
     then { m with readBy := addToSet uid m.readBy } else m),
   (store.filter (markReadFilter uid otherId)).length)

/-! ## DELETE /clear/:userId (lines 289-314) -/

/-- The `deleteMany` filter of lines 297-303. -/
def clearFilter (uid otherId : Nat) (m : Msg) : Bool :=
  m.messageType == MType.direct &&
    ((m.userId == uid && m.recipientId == otherId) ||
     (m.userId == otherId && m.recipientId == uid))

/-- The DELETE `/clear/:userId` handler: remove both directions of the
direct thread; report `deletedCount`. -/
def deleteClear (uid otherId : Nat) (store : List Msg) :
    List Msg × Nat :=
  (store.filter (fun m => !(clearFilter uid otherId m)),
   (store.filter (clearFilter uid otherId)).length)

/-! ## DELETE /:messageId (lines 316-339) -/

inductive DeleteResult where
  | notFound
  | deleted (deletedId : Nat)
  deriving Repr, DecidableEq

/-- `Message.deleteOne({ _id: messageId })`: remove the first document
with that id. -/
def eraseFirstById (mid : Nat) : List Msg → List Msg
  | [] => []
  | m :: rest => if m.id == mid then rest else m :: eraseFirstById mid rest

/-- The DELETE `/:messageId` handler: `findOne` on id, `messageType:
'direct'` and the requester as sender; one 404 response (`Message not
found or you are not authorized to delete it`) whether the document is
missing or the requester is not its sender. -/
def deleteOneMessage (uid mid : Nat) (store : List Msg) :
    List Msg × DeleteResult :=
  match store.find? (fun m =>
      m.id == mid && m.messageType == MType.direct && m.userId == uid) with
  | none => (store, .notFound)
  | some _ => (eraseFirstById mid store, .deleted mid)

/-! ## Concrete fixtures (used by witnesses) -/

def alice : User :=
  { id := 1, name := "Alice", email := "alice@example.com", role := "member" }

def bob : User :=
  { id := 2, name := "Bob", email := "bob@example.com", role := "member" }

def demoUsers : List User := [alice, bob]

/-- A ciphertext the demo decoder can decode. -/
def okCipher : List Char := ['o', 'k']

/-- A ciphertext the demo decoder fails on. -/
def badCipher : List Char := ['x']

/-- Concrete decoder standing in for `decryptMessage` in witnesses. -/
def demoDec : List Char → Except DecryptError String := fun s =>
  if s = okCipher then .ok "ok" else .error .decrypt

def threadMsgA : Msg :=
  { id := 10, messageType := .direct, userId := 1, recipientId := 2
    text := badCipher, timestamp := 5, readBy := [1]
    edited := false, editedAt := none }

def threadMsgB : Msg :=
  { id := 11, messageType := .direct, userId := 2, recipientId := 1
    text := okCipher, timestamp := 7, readBy := [2]
    edited := false, editedAt := none }

def threadStore : List Msg := [threadMsgA, threadMsgB]

def unreadMsg1 : Msg :=
  { id := 21, messageType := .direct, userId := 2, recipientId := 1
    text := okCipher, timestamp := 31, readBy := [2]
    edited := false, editedAt := none }

def unreadMsg2 : Msg :=
  { id := 22, messageType := .direct, userId := 2, recipientId := 1
    text := okCipher, timestamp := 32, readBy := [2]
    edited := false, editedAt := none }

def unreadMsg3 : Msg :=
  { id := 23, messageType := .direct, userId := 2, recipientId := 1
    text := okCipher, timestamp := 33, readBy := [2]
    edited := false, editedAt := none }

/-- Three messages from Bob (2) to Alice (1), none read by Alice. -/
def unreadStore : List Msg := [unreadMsg1, unreadMsg2, unreadMsg3]

def pairMsgA : Msg :=
  { id := 1, messageType := .direct, userId := 1, recipientId := 2
    text := okCipher, timestamp := 41, readBy := [1]
    edited := false, editedAt := none }

def pairMsgB : Msg :=
  { id := 2, messageType := .direct, userId := 2, recipientId := 1
    text := okCipher, timestamp := 42, readBy := [2]
    edited := false, editedAt := none }

/-- A team message whose participants match the 1-2 pair. -/
def teamMsg : Msg :=
  { id := 3, messageType := .team, userId := 1, recipientId := 2
    text := okCipher, timestamp := 43, readBy := [1]
    edited := false, editedAt := none }

/-- A direct message of a different user pair (1 and 3). -/
def otherPairMsg : Msg :=
  { id := 4, messageType := .direct, userId := 1, recipientId := 3
    text := okCipher, timestamp := 44, readBy := [1]
    edited := false, editedAt := none }

def frameStore : List Msg := [pairMsgA, pairMsgB, teamMsg, otherPairMsg]

def convMsg1 : Msg :=
  { id := 51, messageType := .direct, userId := 1, recipientId := 2
    text := okCipher, timestamp := 10, readBy := [1]
    edited := false, editedAt := none }

def convMsg2 : Msg :=
  { id := 52, messageType := .direct, userId := 2, recipientId := 1
    text := okCipher, timestamp := 20, readBy := [2]
    edited := false, editedAt := none }

/-- M1 at t=10 and M2 at t=20 between users 1 and 2. -/
def convStore : List Msg := [convMsg1, convMsg2]

/-- A direct message whose sender (user 9) has been deleted from the
user store. -/
def orphanSenderMsg : Msg :=
  { id := 61, messageType := .direct, userId := 9, recipientId := 1
    text := okCipher, timestamp := 70, readBy := [9]
    edited := false, editedAt := none }

/-- A direct message sent by the requester whose recipient (user 9) has
been deleted from the user store. -/
def orphanRecipientMsg : Msg :=
  { id := 62, messageType := .direct, userId := 1, recipientId := 9
    text := okCipher, timestamp := 71, readBy := [1]
    edited := false, editedAt := none }

/-! ## Lemmas about the hex serialization and colon splitting -/

theorem hexDigitVal_toHexDigit :
    ∀ n : Fin 16, hexDigitVal (toHexDigit n.val) = some n.val := by decide

theorem toHexDigit_ne_colon : ∀ n : Fin 16, toHexDigit n.val ≠ ':' := by decide

theorem hexEncode_not_colon (bs : List Nat) : ':' ∉ hexEncode bs := by
  induction bs with
  | nil => simp [hexEncode]
  | cons b bs ih =>
    simp only [hexEncode, List.mem_cons, not_or]
    refine ⟨?_, ?_, ih⟩
    · exact fun h => toHexDigit_ne_colon ⟨b / 16 % 16, Nat.mod_lt _ (by omega)⟩ h.symm
    · exact fun h => toHexDigit_ne_colon ⟨b % 16, Nat.mod_lt _ (by omega)⟩ h.symm

theorem hexEncode_length (bs : List Nat) :
    (hexEncode bs).length = 2 * bs.length := by
  induction bs with
  | nil => rfl
  | cons b bs ih => simp [hexEncode, ih]; omega

theorem hexDecode_hexEncode (bs : List Nat) (h : ∀ b ∈ bs, b < 256) :
    hexDecode (hexEncode bs) = bs := by
  induction bs with
  | nil => rfl
  | cons b bs ih =>
    have hb : b < 256 := h b (List.mem_cons_self b bs)
    have h1 : b / 16 < 16 := Nat.div_lt_of_lt_mul (by omega)
    have e1 : hexDigitVal (toHexDigit (b / 16 % 16)) = some (b / 16 % 16) :=
      hexDigitVal_toHexDigit ⟨b / 16 % 16, Nat.mod_lt _ (by omega)⟩
    have e2 : hexDigitVal (toHexDigit (b % 16)) = some (b % 16) :=
      hexDigitVal_toHexDigit ⟨b % 16, Nat.mod_lt _ (by omega)⟩
    simp only [hexEncode, hexDecode, e1, e2]
    rw [Nat.mod_eq_of_lt h1, ih (fun x hx => h x (List.mem_cons_of_mem _ hx))]
    congr 1
    omega

theorem splitColon_ne_nil (s : List Char) : splitColon s ≠ [] := by
  cases s with
  | nil => simp [splitColon]
  | cons c cs =>
    simp only [splitColon]
    split
    · simp
    · split <;> simp

theorem splitColon_of_not_colon (a : List Char) (ha : ':' ∉ a) :
    splitColon a = [a] := by
  induction a with
  | nil => rfl
  | cons c cs ih =>
    simp only [List.mem_cons, not_or] at ha
    have hc : ¬(c = ':') := fun h => ha.1 h.symm
    simp only [splitColon, if_neg hc, ih ha.2]

theorem splitColon_append (a b : List Char) (ha : ':' ∉ a) :
    splitColon (a ++ ':' :: b) = a :: splitColon b := by
  induction a with
  | nil => simp [splitColon]
  | cons c cs ih =>
    simp only [List.mem_cons, not_or] at ha
    have hc : ¬(c = ':') := fun h => ha.1 h.symm
    simp only [List.cons_append, splitColon, List.append_eq, if_neg hc,
      ih ha.2]

theorem splitColon_wire (a b : List Char) (ha : ':' ∉ a) (hb : ':' ∉ b) :
    splitColon (a ++ ':' :: b) = [a, b] := by
  rw [splitColon_append a b ha, splitColon_of_not_colon b hb]

theorem splitColon_length (s : List Char) :
    (splitColon s).length = s.count ':' + 1 := by
  induction s with
  | nil => simp [splitColon]
  | cons c cs ih =>
    by_cases hc : c = ':'
    · subst hc
      simp only [splitColon, eq_self_iff_true, if_true, List.length_cons]
      rw [ih]
      simp [List.count_cons]
    · obtain ⟨p, ps, hps⟩ : ∃ p ps, splitColon cs = p :: ps := by
        cases h : splitColon cs with
        | nil => exact absurd h (splitColon_ne_nil cs)
        | cons p ps => exact ⟨p, ps, rfl⟩
      simp only [splitColon, if_neg hc, hps, List.length_cons]
      rw [← List.length_cons p ps, ← hps, ih]
      simp [List.count_cons, hc]

/-! ## Behaviour of `decryptMessage` on each input shape -/

theorem decryptMessage_format_of_parts
    (gunz : List Nat → Except Unit String)
    (aesDec : List Nat → List Nat → List Nat → Except Unit (List Nat))
    (key : List Nat) (s : List Char)
    (h : (splitColon s).length ≠ 2) :
    decryptMessage gunz aesDec key s = .error .format := by
  cases hs : splitColon s with
  | nil => simp [decryptMessage, hs]
  | cons a t =>
    cases t with
    | nil => simp [decryptMessage, hs]
    | cons b t2 =>
      cases t2 with
      | nil => exact absurd (by rw [hs] ; rfl) h
      | cons c t3 => simp [decryptMessage, hs]

theorem decryptMessage_badIV
    (gunz : List Nat → Except Unit String)
    (aesDec : List Nat → List Nat → List Nat → Except Unit (List Nat))
    (key : List Nat) (a b : List Char)
    (ha : ':' ∉ a) (hb : ':' ∉ b)
    (hlen : (hexDecode a).length ≠ 16) :
    decryptMessage gunz aesDec key (a ++ ':' :: b) = .error .badIV := by
  simp only [decryptMessage, splitColon_wire a b ha hb]
  rw [if_neg hlen]

/-- C1: decoding an encoded plaintext returns the plaintext. The gzip and
AES-256-CBC primitives are parameters constrained by their inversion
properties (and byte-ness of the AES output); everything else — the hex
serialization, the `:` framing, the IV length gate — is concrete. -/
theorem C1_encrypt_decrypt_roundtrip
    (gz : String → List Nat) (gunz : List Nat → Except Unit String)
    (aesEnc : List Nat → List Nat → List Nat → List Nat)
    (aesDec : List Nat → List Nat → List Nat → Except Unit (List Nat))
    (key iv : List Nat) (p : String)
    (hiv : iv.length = 16)
    (hivB : ∀ b ∈ iv, b < 256)
    (hctB : ∀ b ∈ aesEnc key iv (gz p), b < 256)
    (haes : aesDec key iv (aesEnc key iv (gz p)) = .ok (gz p))
    (hgunz : gunz (gz p) = .ok p) :
    decryptMessage gunz aesDec key (encryptMessage gz aesEnc key iv p) =
      .ok p := by
  simp only [encryptMessage, decryptMessage,
    splitColon_wire _ _ (hexEncode_not_colon iv)
      (hexEncode_not_colon (aesEnc key iv (gz p)))]
  simp only [hexDecode_hexEncode iv hivB, hexDecode_hexEncode _ hctB,
    hiv, eq_self_iff_true, if_true, haes, hgunz]

/-- Witness for C1 at concrete primitives, key, IV and plaintext. -/
theorem C1_encrypt_decrypt_roundtrip_witness :
    (List.replicate 16 0 : List Nat).length = 16 ∧
      decryptMessage (fun _ => .ok "hi") (fun _ _ c => .ok c) []
        (encryptMessage (fun _ => [1, 2]) (fun _ _ m => m) []
          (List.replicate 16 0) "hi") = .ok "hi" :=
  ⟨by decide,
   C1_encrypt_decrypt_roundtrip (fun _ => [1, 2]) (fun _ => .ok "hi")
     (fun _ _ m => m) (fun _ _ c => .ok c) [] (List.replicate 16 0) "hi"
     (by decide) (by decide) (by decide) rfl rfl⟩

/-- C6 (amended): `decryptMessage` fails with the format error on every
input whose `:` count is not exactly 1 (in particular zero colons or two
or more colons), and fails (with the `createDecipheriv` IV error) on a
one-colon input whose IV part hex-decodes, under Node's truncating hex
decoder, to other than 16 bytes. Malformed hex that still truncates to a
16-byte IV is not rejected at the format level (see the counterexample). -/
theorem C6_decrypt_malformed_rejection
    (gunz : List Nat → Except Unit String)
    (aesDec : List Nat → List Nat → List Nat → Except Unit (List Nat))
    (key : List Nat) :
    (∀ s : List Char, s.count ':' ≠ 1 →
        decryptMessage gunz aesDec key s = .error .format) ∧
    (∀ a b : List Char, ':' ∉ a → ':' ∉ b → (hexDecode a).length ≠ 16 →
        decryptMessage gunz aesDec key (a ++ ':' :: b) = .error .badIV) := by
  constructor
  · intro s hcount
    apply decryptMessage_format_of_parts
    rw [splitColon_length]
    omega
  · intro a b ha hb hlen
    exact decryptMessage_badIV gunz aesDec key a b ha hb hlen

/-- Witness for C6 (amended) at concrete inputs: `"::"` (two colons) is a
format error and `":ab"` (empty IV part) is an IV error. -/
theorem C6_decrypt_malformed_rejection_witness :
    (([':', ':'] : List Char).count ':' ≠ 1 ∧
      decryptMessage (fun _ => .ok "m") (fun _ _ c => .ok c) []
        [':', ':'] = .error .format) ∧
    (':' ∉ ([] : List Char) ∧ (hexDecode []).length ≠ 16 ∧
      decryptMessage (fun _ => .ok "m") (fun _ _ c => .ok c) []
        ([] ++ ':' :: ['a', 'b']) = .error .badIV) :=
  ⟨⟨by decide,
    (C6_decrypt_malformed_rejection (fun _ => .ok "m") (fun _ _ c => .ok c)
      []).1 [':', ':'] (by decide)⟩,
   ⟨by decide, by decide,
    (C6_decrypt_malformed_rejection (fun _ => .ok "m") (fun _ _ c => .ok c)
      []).2 [] ['a', 'b'] (by decide) (by decide) (by decide)⟩⟩

/-- C6 counterexample to the claim as stated: two inputs that are *not*
of the shape `<32-hex-char-iv>:<hex-ciphertext>` — one whose IV part has
33 characters, one whose ciphertext part contains the non-hex character
`z` — on which `decryptMessage` succeeds instead of failing, because
Node's hex decoding silently truncates at the first invalid pair (the
trailing odd `0` and the trailing `z` are dropped). -/
theorem C6_counterexample :
    ((List.replicate 33 '0').length ≠ 32 ∧
      decryptMessage (fun _ => .ok "m") (fun _ _ c => .ok c) []
        (List.replicate 33 '0' ++ ':' :: ['a', 'b']) = .ok "m") ∧
    ('z' ∈ (['a', 'b', 'z'] : List Char) ∧ (hexDigitVal 'z') = none ∧
      decryptMessage (fun _ => .ok "m") (fun _ _ c => .ok c) []
        (List.replicate 32 '0' ++ ':' :: ['a', 'b', 'z']) = .ok "m") := by
  exact ⟨⟨by decide, rfl⟩, ⟨by decide, by decide, rfl⟩⟩

/-- C5: the key-length gate fires only on the *first* `getEncryptionKey`
call. The source assigns the decoded buffer to the module-level
`ENCRYPTION_KEY` before checking its length, and a `Buffer` is always
truthy, so after the first call throws `Invalid encryption key length`,
every subsequent call hits the memo branch and returns the invalid
(here 2-byte) key successfully — contradicting the intended
fail-on-every-call gate. -/
theorem C5_invalid_key_memoized :
    (getEncryptionKey (some ['a', 'b', 'c', 'd']) initialKeyState).fst =
        .error () ∧
      (getEncryptionKey (some ['a', 'b', 'c', 'd'])
          (getEncryptionKey (some ['a', 'b', 'c', 'd'])
            initialKeyState).snd).fst = .ok [171, 205] :=
  ⟨rfl, rfl⟩

/-! ## Hex-digit facts and the wire grammar of `encryptMessage` output -/

theorem isSome_hexDigitVal_toHexDigit :
    ∀ n : Fin 16, (hexDigitVal (toHexDigit n.val)).isSome = true := by decide

theorem isHexString_hexEncode (bs : List Nat) :
    isHexString (hexEncode bs) = true := by
  induction bs with
  | nil => rfl
  | cons b bs ih =>
    simp only [hexEncode, isHexString, List.all_cons, Bool.and_eq_true]
    exact ⟨isSome_hexDigitVal_toHexDigit ⟨b / 16 % 16, Nat.mod_lt _ (by omega)⟩,
      isSome_hexDigitVal_toHexDigit ⟨b % 16, Nat.mod_lt _ (by omega)⟩, ih⟩

theorem encryptMessage_wireFormatted (gz : String → List Nat)
    (aesEnc : List Nat → List Nat → List Nat → List Nat)
    (key iv : List Nat) (text : String) (hiv : iv.length = 16) :
    wireFormatted (encryptMessage gz aesEnc key iv text) = true := by
  simp only [wireFormatted, encryptMessage,
    splitColon_wire _ _ (hexEncode_not_colon _) (hexEncode_not_colon _)]
  simp [hexEncode_length, hiv, isHexString_hexEncode]

/-! ## C3: per-message decoding in the thread view -/

theorem threadMap_eq_map (dec : List Char → Except DecryptError String)
    (uid : Nat) (users : List User) (l : List Msg)
    (h : ∀ m ∈ l, (findUser users m.userId).isSome = true) :
    threadMap dec uid users l = .ok (l.map (threadEntry dec uid users)) := by
  induction l with
  | nil => rfl
  | cons m rest ih =>
    obtain ⟨u, hu⟩ :=
      Option.isSome_iff_exists.mp (h m (List.mem_cons_self m rest))
    simp only [threadMap, hu,
      ih (fun x hx => h x (List.mem_cons_of_mem _ hx)), List.map_cons]
    cases hd : dec m.text <;> simp [threadEntry, hu, hd]

/-- C3: fetching the thread decodes each stored message independently —
the handler's response is the per-message image of `threadEntry`, whose
`text` is that message's decryption when decoding succeeds and the
placeholder string when it fails; the response as a whole is a success,
and the store component is returned unchanged. -/
theorem C3_thread_per_message_decode
    (dec : List Char → Except DecryptError String) (uid otherId : Nat)
    (users : List User) (store : List Msg) (otherUser : User)
    (hother : findUser users otherId = some otherUser)
    (hsenders : ∀ m ∈ store, (findUser users m.userId).isSome = true) :
    getThread dec uid otherId users store =
      (store,
       .success
         ((List.insertionSort tsAsc
             (store.filter (betweenUsers uid otherId))).map
           (threadEntry dec uid users)) otherUser) ∧
    (∀ m e, dec m.text = .error e →
      (threadEntry dec uid users m).text = decryptionFailedPlaceholder) ∧
    (∀ m p, dec m.text = .ok p → (threadEntry dec uid users m).text = p) := by
  refine ⟨?_, ?_, ?_⟩
  · have hmem : ∀ m ∈ List.insertionSort tsAsc
        (store.filter (betweenUsers uid otherId)),
        (findUser users m.userId).isSome = true := by
      intro m hm
      have hm2 : m ∈ store.filter (betweenUsers uid otherId) :=
        (List.perm_insertionSort tsAsc _).mem_iff.mp hm
      exact hsenders m (List.mem_of_mem_filter hm2)
    simp only [getThread, hother, threadMap_eq_map dec uid users _ hmem]
  · intro m e he
    simp [threadEntry, he]
  · intro m p hp
    simp [threadEntry, hp]

/-- Witness for C3: a two-message thread in which one message decodes
and the other fails; the failing one alone is the placeholder. -/
theorem C3_thread_per_message_decode_witness :
    getThread demoDec 1 2 demoUsers threadStore =
      (threadStore,
       .success
         ((List.insertionSort tsAsc
             (threadStore.filter (betweenUsers 1 2))).map
           (threadEntry demoDec 1 demoUsers)) bob) ∧
    (threadEntry demoDec 1 demoUsers threadMsgA).text =
      decryptionFailedPlaceholder ∧
    (threadEntry demoDec 1 demoUsers threadMsgB).text = "ok" :=
  ⟨(C3_thread_per_message_decode demoDec 1 2 demoUsers threadStore bob
      (by decide) (by decide)).1,
   (C3_thread_per_message_decode demoDec 1 2 demoUsers threadStore bob
      (by decide) (by decide)).2.1 threadMsgA .decrypt rfl,
   (C3_thread_per_message_decode demoDec 1 2 demoUsers threadStore bob
      (by decide) (by decide)).2.2 threadMsgB "ok" rfl⟩

/-! ## C4: send validation, persistence and echo -/

/-- C4: a send with missing, empty or whitespace-only text is rejected
with the validation error and persists nothing; otherwise the persisted
document's `text` is exactly the `encryptMessage` output on the trimmed
input — a string in the spec's wire grammar, not the plaintext — the
sender is the sole initial member of `readBy`, and the echoed text is
the trimmed original input (the handler takes no decryption function at
all, so the echo cannot come from re-decrypting the stored ciphertext). -/
theorem C4_send_validation_and_ciphertext
    (gz : String → List Nat)
    (aesEnc : List Nat → List Nat → List Nat → List Nat)
    (key iv : List Nat) (uid recipientId newId now : Nat)
    (users : List User) (store : List Msg)
    (hiv : iv.length = 16) :
    postMessage (encryptMessage gz aesEnc key iv) uid recipientId users
        none newId now store = (store, .validationError) ∧
    (∀ t, jsTrim t = "" →
      postMessage (encryptMessage gz aesEnc key iv) uid recipientId users
        (some t) newId now store = (store, .validationError)) ∧
    (∀ t r, jsTrim t ≠ "" → findUser users recipientId = some r →
      postMessage (encryptMessage gz aesEnc key iv) uid recipientId users
          (some t) newId now store =
        (store ++
          [sentMessage (encryptMessage gz aesEnc key iv) uid recipientId t
            newId now],
         .created (jsTrim t)
           (sentMessage (encryptMessage gz aesEnc key iv) uid recipientId t
             newId now)) ∧
      (sentMessage (encryptMessage gz aesEnc key iv) uid recipientId t
          newId now).text = encryptMessage gz aesEnc key iv (jsTrim t) ∧
      wireFormatted (sentMessage (encryptMessage gz aesEnc key iv) uid
          recipientId t newId now).text = true ∧
      (sentMessage (encryptMessage gz aesEnc key iv) uid recipientId t
          newId now).readBy = [uid]) := by
  refine ⟨rfl, fun t ht => ?_, fun t r ht hr => ?_⟩
  · simp [postMessage, ht]
  · exact ⟨by simp [postMessage, ht, hr], rfl,
      encryptMessage_wireFormatted gz aesEnc key iv (jsTrim t) hiv, rfl⟩

/-- Witness for C4: whitespace-only text is rejected with nothing
persisted; `" hi "` is stored encrypted in wire format with the sender
in `readBy` and echoed back trimmed. -/
theorem C4_send_validation_and_ciphertext_witness :
    postMessage (encryptMessage (fun _ => [1]) (fun _ _ m => m) []
        (List.replicate 16 0)) 1 2 demoUsers (some "  ") 99 50 [] =
      ([], .validationError) ∧
    postMessage (encryptMessage (fun _ => [1]) (fun _ _ m => m) []
        (List.replicate 16 0)) 1 2 demoUsers (some " hi ") 99 50 [] =
      ([sentMessage (encryptMessage (fun _ => [1]) (fun _ _ m => m) []
          (List.replicate 16 0)) 1 2 " hi " 99 50],
       .created (jsTrim " hi ")
         (sentMessage (encryptMessage (fun _ => [1]) (fun _ _ m => m) []
           (List.replicate 16 0)) 1 2 " hi " 99 50)) ∧
    wireFormatted (sentMessage (encryptMessage (fun _ => [1])
        (fun _ _ m => m) [] (List.replicate 16 0)) 1 2 " hi " 99 50).text =
      true ∧
    (sentMessage (encryptMessage (fun _ => [1]) (fun _ _ m => m) []
        (List.replicate 16 0)) 1 2 " hi " 99 50).readBy = [1] :=
  ⟨(C4_send_validation_and_ciphertext (fun _ => [1]) (fun _ _ m => m) []
      (List.replicate 16 0) 1 2 99 50 demoUsers [] (by decide)).2.1 "  "
      (by decide),
   ((C4_send_validation_and_ciphertext (fun _ => [1]) (fun _ _ m => m) []
      (List.replicate 16 0) 1 2 99 50 demoUsers [] (by decide)).2.2 " hi "
      bob (by decide) (by decide)).1,
   ((C4_send_validation_and_ciphertext (fun _ => [1]) (fun _ _ m => m) []
      (List.replicate 16 0) 1 2 99 50 demoUsers [] (by decide)).2.2 " hi "
      bob (by decide) (by decide)).2.2.1,
   ((C4_send_validation_and_ciphertext (fun _ => [1]) (fun _ _ m => m) []
      (List.replicate 16 0) 1 2 99 50 demoUsers [] (by decide)).2.2 " hi "
      bob (by decide) (by decide)).2.2.2⟩

/-! ## C8: delete-one authorization -/

theorem find?_delete_pred_eq_none (u i : Nat) (s : List Msg)
    (hne : ¬ ∃ m ∈ s, m.id = i ∧ m.messageType = MType.direct ∧
      m.userId = u) :
    s.find? (fun m =>
      m.id == i && m.messageType == MType.direct && m.userId == u) =
      none := by
  rw [List.find?_eq_none]
  intro x hx hpx
  simp only [Bool.and_eq_true, beq_iff_eq] at hpx
  exact hne ⟨x, hx, hpx.1.1, hpx.1.2, hpx.2⟩

/-- C8: a single-message delete removes the message exactly when the
requester is its sender and it exists as a direct message; otherwise
the store is untouched and the response is the one shared not-found
rejection — the same `.notFound` value whether the message is missing
or belongs to someone else, so the two cases are indistinguishable. -/
theorem C8_delete_one_authorization (uid mid : Nat) (store : List Msg) :
    ((∃ m ∈ store, m.id = mid ∧ m.messageType = MType.direct ∧
        m.userId = uid) →
      deleteOneMessage uid mid store =
        (eraseFirstById mid store, .deleted mid)) ∧
    ((¬ ∃ m ∈ store, m.id = mid ∧ m.messageType = MType.direct ∧
        m.userId = uid) →
      deleteOneMessage uid mid store = (store, .notFound)) ∧
    (∀ uid2 mid2 store2,
      (¬ ∃ m ∈ store, m.id = mid ∧ m.messageType = MType.direct ∧
        m.userId = uid) →
      (¬ ∃ m ∈ store2, m.id = mid2 ∧ m.messageType = MType.direct ∧
        m.userId = uid2) →
      (deleteOneMessage uid mid store).snd =
        (deleteOneMessage uid2 mid2 store2).snd) := by
  refine ⟨?_, ?_, ?_⟩
  · rintro ⟨m, hm, h1, h2, h3⟩
    cases h : store.find? (fun m =>
        m.id == mid && m.messageType == MType.direct && m.userId == uid) with
    | none =>
      exfalso
      rw [List.find?_eq_none] at h
      exact h m hm (by simp [h1, h2, h3])
    | some m0 => simp [deleteOneMessage, h]
  · intro hne
    simp [deleteOneMessage, find?_delete_pred_eq_none uid mid store hne]
  · intro uid2 mid2 store2 hne1 hne2
    simp [deleteOneMessage, find?_delete_pred_eq_none uid mid store hne1,
      find?_delete_pred_eq_none uid2 mid2 store2 hne2]

/-- Witness for C8: the sender (1) can delete message 1 of `frameStore`;
the recipient (2) attempting the same delete, and anyone deleting a
missing id, get the identical not-found response. -/
theorem C8_delete_one_authorization_witness :
    deleteOneMessage 1 1 frameStore =
      (eraseFirstById 1 frameStore, .deleted 1) ∧
    deleteOneMessage 2 1 frameStore = (frameStore, .notFound) ∧
    (deleteOneMessage 2 1 frameStore).snd =
      (deleteOneMessage 1 99 frameStore).snd :=
  ⟨(C8_delete_one_authorization 1 1 frameStore).1
      ⟨pairMsgA, by decide, by decide, by decide, by decide⟩,
   (C8_delete_one_authorization 2 1 frameStore).2.1 (by decide),
   (C8_delete_one_authorization 2 1 frameStore).2.2 1 99 frameStore
      (by decide) (by decide)⟩

/-! ## C9: mark-read as an idempotent set union -/

theorem contains_addToSet (x : Nat) (l : List Nat) :
    (addToSet x l).contains x = true := by
  unfold addToSet
  by_cases h : l.contains x
  · rw [if_pos h]
    exact h
  · rw [if_neg h]
    simp

/-- On a message the update filter matches, `$addToSet` is a plain
append (the filter guarantees the reader is absent). -/
theorem patchMarkRead_fst_eq (uid otherId : Nat) (store : List Msg) :
    (patchMarkRead uid otherId store).fst =
      store.map (fun m =>
        if markReadFilter uid otherId m
        then { m with readBy := m.readBy ++ [uid] } else m) := by
  simp only [patchMarkRead]
  refine List.map_congr_left (fun m _ => ?_)
  by_cases h : markReadFilter uid otherId m
  · have hc : m.readBy.contains uid = false := by
      have := h
      simp only [markReadFilter, Bool.and_eq_true, Bool.not_eq_true'] at this
      exact this.2
    have hnotmem : uid ∉ m.readBy := by simpa using hc
    rw [if_pos h, if_pos h]
    simp [addToSet, hnotmem]
  · rw [if_neg h, if_neg h]

/-- After a mark-read pass, no message still matches the update filter. -/
theorem markReadFilter_patch_false (uid otherId : Nat) (store : List Msg) :
    ∀ m ∈ (patchMarkRead uid otherId store).fst,
      markReadFilter uid otherId m = false := by
  intro m hm
  rw [patchMarkRead_fst_eq] at hm
  obtain ⟨m0, _, rfl⟩ := List.mem_map.mp hm
  by_cases h0 : markReadFilter uid otherId m0
  · rw [if_pos h0]
    have hc : ((m0.readBy ++ [uid]).contains uid) = true := by simp
    simp [markReadFilter, hc]
  · rw [if_neg h0]
    exact (Bool.not_eq_true _).mp h0

/-- C9: marking a thread read (1) rewrites the store pointwise, adding
the reader to `readBy` of exactly the qualifying messages (direct, from
the counterpart, to the reader, reader absent) and leaving every other
message unchanged; (2) afterwards no message qualifies; (3) afterwards
every direct message from the counterpart to the reader has the reader
in `readBy`; and (4) a second application returns the same store and
reports zero messages modified. -/
theorem C9_mark_read_idempotent (uid otherId : Nat) (store : List Msg) :
    ((patchMarkRead uid otherId store).fst =
      store.map (fun m =>
        if markReadFilter uid otherId m
        then { m with readBy := m.readBy ++ [uid] } else m)) ∧
    (∀ m ∈ (patchMarkRead uid otherId store).fst,
      markReadFilter uid otherId m = false) ∧
    (∀ m ∈ (patchMarkRead uid otherId store).fst,
      m.messageType = MType.direct → m.userId = otherId →
      m.recipientId = uid → m.readBy.contains uid = true) ∧
    (patchMarkRead uid otherId ((patchMarkRead uid otherId store).fst) =
      ((patchMarkRead uid otherId store).fst, 0)) := by
  have h1 := patchMarkRead_fst_eq uid otherId store
  have h2 := markReadFilter_patch_false uid otherId store
  refine ⟨h1, h2, ?_, ?_⟩
  · intro m hm hdir hfrom hto
    rw [h1] at hm
    obtain ⟨m0, _, rfl⟩ := List.mem_map.mp hm
    by_cases h0 : markReadFilter uid otherId m0
    · rw [if_pos h0]
      simp
    · rw [if_neg h0] at hdir hfrom hto ⊢
      rcases Bool.eq_false_or_eq_true (m0.readBy.contains uid) with hc | hc
      · exact hc
      · exfalso
        apply h0
        have hnm : uid ∉ m0.readBy := by simpa using hc
        simp [markReadFilter, hdir, hfrom, hto, hnm]
  · have hfix : ∀ m ∈ (patchMarkRead uid otherId store).fst,
        (if markReadFilter uid otherId m
         then { m with readBy := addToSet uid m.readBy } else m) = m := by
      intro m hm
      rw [if_neg (by simp [h2 m hm])]
    have hmap : ((patchMarkRead uid otherId store).fst).map (fun m =>
        if markReadFilter uid otherId m
        then { m with readBy := addToSet uid m.readBy } else m) =
        (patchMarkRead uid otherId store).fst := by
      have hfix2 : ∀ m ∈ (patchMarkRead uid otherId store).fst,
          (if markReadFilter uid otherId m
           then { m with readBy := addToSet uid m.readBy } else m) =
            id m := hfix
      have hcongr := List.map_congr_left hfix2
      simpa using hcongr
    have hfil : ((patchMarkRead uid otherId store).fst).filter
        (markReadFilter uid otherId) = [] := by
      rw [List.filter_eq_nil_iff]
      intro m hm
      simp [h2 m hm]
    have heq : patchMarkRead uid otherId
        ((patchMarkRead uid otherId store).fst) =
        (((patchMarkRead uid otherId store).fst).map (fun m =>
           if markReadFilter uid otherId m
           then { m with readBy := addToSet uid m.readBy } else m),
         (((patchMarkRead uid otherId store).fst).filter
            (markReadFilter uid otherId)).length) := rfl
    rw [heq, hmap, hfil]
    rfl

/-- Witness for C9: after Alice (1) marks Bob's (2) three unread
messages read, nothing qualifies and a second mark-read is a no-op
reporting zero modified. -/
theorem C9_mark_read_idempotent_witness :
    (patchMarkRead 1 2 ((patchMarkRead 1 2 unreadStore).fst) =
      ((patchMarkRead 1 2 unreadStore).fst, 0)) ∧
    (patchMarkRead 1 2 unreadStore).snd = 3 :=
  ⟨(C9_mark_read_idempotent 1 2 unreadStore).2.2.2, by decide⟩

/-! ## C10: frame conditions of the two delete operations -/

theorem mem_eraseFirstById_of_ne (mid : Nat) (l : List Msg) :
    ∀ m ∈ l, m.id ≠ mid → m ∈ eraseFirstById mid l := by
  induction l with
  | nil => intro m hm; cases hm
  | cons x xs ih =>
    intro m hm hne
    rcases List.mem_cons.mp hm with rfl | hxs
    · rw [eraseFirstById, if_neg (by simp [hne])]
      exact List.mem_cons_self _ _
    · by_cases hx : x.id == mid
      · rw [eraseFirstById, if_pos hx]
        exact hxs
      · rw [eraseFirstById, if_neg hx]
        exact List.mem_cons_of_mem _ (ih m hxs hne)

theorem eraseFirstById_subset (mid : Nat) (l : List Msg) :
    ∀ m ∈ eraseFirstById mid l, m ∈ l := by
  induction l with
  | nil => intro m hm; cases hm
  | cons x xs ih =>
    intro m hm
    by_cases hx : x.id == mid
    · rw [eraseFirstById, if_pos hx] at hm
      exact List.mem_cons_of_mem _ hm
    · rw [eraseFirstById, if_neg hx] at hm
      rcases List.mem_cons.mp hm with rfl | hxs
      · exact List.mem_cons_self _ _
      · exact List.mem_cons_of_mem _ (ih m hxs)

theorem length_le_eraseFirstById (mid : Nat) (l : List Msg) :
    l.length ≤ (eraseFirstById mid l).length + 1 := by
  induction l with
  | nil => simp
  | cons x xs ih =>
    by_cases hx : x.id == mid
    · rw [eraseFirstById, if_pos hx]
      simp
    · rw [eraseFirstById, if_neg hx]
      simpa using Nat.succ_le_succ ih

theorem msgId_inj (store : List Msg) (hnodup : (store.map Msg.id).Nodup) :
    ∀ x ∈ store, ∀ y ∈ store, x.id = y.id → x = y := by
  intro x hx y hy hxy
  by_contra hne
  have hp : List.Pairwise (fun a b : Msg => a.id ≠ b.id) store :=
    List.pairwise_map.mp hnodup
  have hsymm : Symmetric (fun a b : Msg => a.id ≠ b.id) := by
    intro a b h e
    exact h e.symm
  exact List.Pairwise.forall hsymm hp hx hy hne hxy

/-- C10: the two delete operations only remove direct messages matching
their filter. Clear-between keeps a stored message exactly when it is
not a direct message between the two users (so every team message and
every other pair's direct message survives, participants or not);
delete-one keeps every team message, every message with a different id,
and every message of a different sender — even when id or participants
otherwise match — removes at most one message, and neither operation
adds messages. Message ids are assumed unique (MongoDB `_id`). -/
theorem C10_delete_operations_frame (uid otherId mid : Nat)
    (store : List Msg) (hnodup : (store.map Msg.id).Nodup) :
    (∀ m ∈ store, (m ∈ (deleteClear uid otherId store).fst ↔
        ¬(m.messageType = MType.direct ∧
          ((m.userId = uid ∧ m.recipientId = otherId) ∨
           (m.userId = otherId ∧ m.recipientId = uid))))) ∧
    (∀ m ∈ (deleteClear uid otherId store).fst, m ∈ store) ∧
    (∀ m ∈ store, m.messageType = MType.team →
        m ∈ (deleteOneMessage uid mid store).fst) ∧
    (∀ m ∈ store, m.id ≠ mid →
        m ∈ (deleteOneMessage uid mid store).fst) ∧
    (∀ m ∈ store, m.userId ≠ uid →
        m ∈ (deleteOneMessage uid mid store).fst) ∧
    (∀ m ∈ (deleteOneMessage uid mid store).fst, m ∈ store) ∧
    store.length ≤ (deleteOneMessage uid mid store).fst.length + 1 := by
  have hinj := msgId_inj store hnodup
  have hkeep : ∀ m ∈ store, m.id ≠ mid →
      m ∈ (deleteOneMessage uid mid store).fst := by
    intro m hm hid
    cases h : store.find? (fun m =>
        m.id == mid && m.messageType == MType.direct && m.userId == uid) with
    | none =>
      simp only [deleteOneMessage, h]
      exact hm
    | some m0 =>
      simp only [deleteOneMessage, h]
      exact mem_eraseFirstById_of_ne mid store m hm hid
  refine ⟨?_, ?_, ?_, hkeep, ?_, ?_, ?_⟩
  · intro m hm
    constructor
    · intro hmem hmatch
      have hkeepB := (List.mem_filter.mp hmem).2
      obtain ⟨hdir, hcase⟩ := hmatch
      rcases hcase with ⟨hu, hr⟩ | ⟨hu, hr⟩ <;>
        simp [clearFilter, hdir, hu, hr] at hkeepB
    · intro hno
      refine List.mem_filter.mpr ⟨hm, ?_⟩
      rcases Bool.eq_false_or_eq_true (clearFilter uid otherId m) with ht | hf
      · exfalso
        simp only [clearFilter, Bool.and_eq_true, Bool.or_eq_true,
          beq_iff_eq] at ht
        exact hno ⟨ht.1, ht.2⟩
      · simp [hf]
  · intro m hm
    exact List.mem_of_mem_filter hm
  · intro m hm hteam
    by_cases hid : m.id = mid
    · cases h : store.find? (fun m =>
          m.id == mid && m.messageType == MType.direct &&
            m.userId == uid) with
      | none =>
        simp only [deleteOneMessage, h]
        exact hm
      | some m0 =>
        exfalso
        have hps := List.find?_some h
        have hm0 : m0 ∈ store := List.mem_of_find?_eq_some h
        simp only [Bool.and_eq_true, beq_iff_eq] at hps
        have hmm : m = m0 := hinj m hm m0 hm0 (by rw [hid, hps.1.1])
        rw [hmm, hps.1.2] at hteam
        cases hteam
    · exact hkeep m hm hid
  · intro m hm hsender
    by_cases hid : m.id = mid
    · cases h : store.find? (fun m =>
          m.id == mid && m.messageType == MType.direct &&
            m.userId == uid) with
      | none =>
        simp only [deleteOneMessage, h]
        exact hm
      | some m0 =>
        exfalso
        have hps := List.find?_some h
        have hm0 : m0 ∈ store := List.mem_of_find?_eq_some h
        simp only [Bool.and_eq_true, beq_iff_eq] at hps
        have hmm : m = m0 := hinj m hm m0 hm0 (by rw [hid, hps.1.1])
        rw [hmm] at hsender
        exact hsender hps.2
    · exact hkeep m hm hid
  · intro m hm
    revert hm
    cases h : store.find? (fun m =>
        m.id == mid && m.messageType == MType.direct && m.userId == uid) with
    | none =>
      simp only [deleteOneMessage, h]
      exact id
    | some m0 =>
      simp only [deleteOneMessage, h]
      exact eraseFirstById_subset mid store m
  · cases h : store.find? (fun m =>
        m.id == mid && m.messageType == MType.direct && m.userId == uid) with
    | none =>
      simp only [deleteOneMessage, h]
      omega
    | some m0 =>
      simp only [deleteOneMessage, h]
      exact length_le_eraseFirstById mid store

/-- Witness for C10 on `frameStore`: the team message and the other
pair's message survive a 1-2 clear while the pair's own message goes;
delete-one at the team message's id, at a different id, and at another
sender's message leaves each of them in place. -/
theorem C10_delete_operations_frame_witness :
    teamMsg ∈ (deleteClear 1 2 frameStore).fst ∧
    otherPairMsg ∈ (deleteClear 1 2 frameStore).fst ∧
    pairMsgA ∉ (deleteClear 1 2 frameStore).fst ∧
    teamMsg ∈ (deleteOneMessage 1 3 frameStore).fst ∧
    otherPairMsg ∈ (deleteOneMessage 1 1 frameStore).fst ∧
    pairMsgB ∈ (deleteOneMessage 1 2 frameStore).fst :=
  ⟨((C10_delete_operations_frame 1 2 1 frameStore (by decide)).1 teamMsg
      (by decide)).mpr (by decide),
   ((C10_delete_operations_frame 1 2 1 frameStore (by decide)).1
      otherPairMsg (by decide)).mpr (by decide),
   fun hmem =>
     ((C10_delete_operations_frame 1 2 1 frameStore (by decide)).1 pairMsgA
       (by decide)).mp hmem (by decide),
   (C10_delete_operations_frame 1 2 3 frameStore (by decide)).2.2.1 teamMsg
     (by decide) (by decide),
   (C10_delete_operations_frame 1 2 1 frameStore (by decide)).2.2.2.1
     otherPairMsg (by decide) (by decide),
   (C10_delete_operations_frame 1 2 2 frameStore (by decide)).2.2.2.2.1
     pairMsgB (by decide) (by decide)⟩

/-! ## C7: conversation aggregation with a deleted counterpart -/

/-- C7: the conversations loop does no null-handling on populated user
references — with one stored direct message whose sender (respectively
recipient) has been deleted from the user store, the handler evaluates
to the thrown-`TypeError` outcome (HTTP 500, `success: false`) instead
of a successful result. -/
theorem C7_deleted_counterpart_crashes :
    (getConversations 1 demoUsers [orphanSenderMsg]).snd = .error () ∧
    (getConversations 1 demoUsers [orphanRecipientMsg]).snd = .error () :=
  ⟨rfl, rfl⟩

/-! ## C2: conversation aggregation -/

theorem findUser_eq_some_id (users : List User) (i : Nat) (u : User)
    (h : findUser users i = some u) : u.id = i := by
  have := List.find?_some h
  simpa using this

/-- The unread-count query is the mark-read update filter. -/
theorem unreadFromTo_markReadFilter (s : List Msg) (c u : Nat) :
    unreadFromTo s c u = (s.filter (markReadFilter u c)).length := rfl

/-- Behaviour of the conversations fold: on a sorted-newest-first input
whose user references all resolve, it succeeds and emits, in first-seen
order, one summary per counterpart not already seen, carrying the
first-seen (= most recent) message and the unread count of that
counterpart. -/
theorem convLoop_spec (uid : Nat) (users : List User) (store : List Msg)
    (l : List Msg) :
    ∀ seen : List Nat,
    (∀ m ∈ l, (findUser users m.userId).isSome = true ∧
      (findUser users m.recipientId).isSome = true) →
    ∃ out, convLoop uid users store seen l = .ok out ∧
      (∀ s ∈ out, s.user.id ∉ seen) ∧
      ((out.map (fun s => s.user.id)).Nodup) ∧
      (∀ c, c ∈ out.map (fun s => s.user.id) ↔
        (c ∉ seen ∧ ∃ m ∈ l, counterpartId uid m = c)) ∧
      (∀ s ∈ out, ∃ m ∈ l, counterpartId uid m = s.user.id ∧
        s.lastTimestamp = m.timestamp ∧ s.lastText = m.text ∧
        s.unreadCount = unreadFromTo store s.user.id uid) ∧
      (List.Pairwise tsDesc l →
        (∀ s ∈ out, ∀ m2 ∈ l, counterpartId uid m2 = s.user.id →
          m2.timestamp ≤ s.lastTimestamp) ∧
        out.Pairwise (fun a b => b.lastTimestamp ≤ a.lastTimestamp)) := by
  induction l with
  | nil =>
    intro seen hres
    exact ⟨[], rfl, by simp, by simp, by simp, by simp, by simp⟩
  | cons m rest ih =>
    intro seen hres
    obtain ⟨hs, hrr⟩ := hres m (List.mem_cons_self m rest)
    have hresR : ∀ m2 ∈ rest, (findUser users m2.userId).isSome = true ∧
        (findUser users m2.recipientId).isSome = true :=
      fun m2 hm2 => hres m2 (List.mem_cons_of_mem _ hm2)
    obtain ⟨u, hu⟩ := Option.isSome_iff_exists.mp hs
    have huid : u.id = m.userId := findUser_eq_some_id users m.userId u hu
    have key : ∀ (v : User) (fm : Bool),
        v.id = counterpartId uid m →
        (∀ sn : List Nat, convLoop uid users store sn (m :: rest) =
          (if sn.contains v.id then convLoop uid users store sn rest
           else
             match convLoop uid users store (v.id :: sn) rest with
             | .error e => .error e
             | .ok tail =>
               .ok ({ user := v, lastText := m.text
                      lastTimestamp := m.timestamp, fromMe := fm
                      unreadCount := unreadFromTo store v.id uid }
                 :: tail))) →
        ∃ out, convLoop uid users store seen (m :: rest) = .ok out ∧
          (∀ s ∈ out, s.user.id ∉ seen) ∧
          ((out.map (fun s => s.user.id)).Nodup) ∧
          (∀ c, c ∈ out.map (fun s => s.user.id) ↔
            (c ∉ seen ∧ ∃ m2 ∈ m :: rest, counterpartId uid m2 = c)) ∧
          (∀ s ∈ out, ∃ m2 ∈ m :: rest, counterpartId uid m2 = s.user.id ∧
            s.lastTimestamp = m2.timestamp ∧ s.lastText = m2.text ∧
            s.unreadCount = unreadFromTo store s.user.id uid) ∧
          (List.Pairwise tsDesc (m :: rest) →
            (∀ s ∈ out, ∀ m2 ∈ m :: rest,
              counterpartId uid m2 = s.user.id →
              m2.timestamp ≤ s.lastTimestamp) ∧
            out.Pairwise (fun a b => b.lastTimestamp ≤ a.lastTimestamp)) := by
      intro v fm hv hstep
      by_cases hseen : seen.contains v.id
      · have hvmem : v.id ∈ seen := by simpa using hseen
        obtain ⟨out, hout, ha, hnd, hcc, hdd, hff⟩ := ih seen hresR
        rw [hstep seen, if_pos hseen]
        refine ⟨out, hout, ha, hnd, ?_, ?_, ?_⟩
        · intro c
          rw [hcc c]
          constructor
          · rintro ⟨hns, m2, hm2, hcp⟩
            exact ⟨hns, m2, List.mem_cons_of_mem _ hm2, hcp⟩
          · rintro ⟨hns, m2, hm2, hcp⟩
            rcases List.mem_cons.mp hm2 with heq | hm2r
            · exfalso
              apply hns
              rw [← hcp, heq, ← hv]
              exact hvmem
            · exact ⟨hns, m2, hm2r, hcp⟩
        · intro s hsout
          obtain ⟨m2, hm2, hrest⟩ := hdd s hsout
          exact ⟨m2, List.mem_cons_of_mem _ hm2, hrest⟩
        · intro hsort
          have hp := List.pairwise_cons.mp hsort
          obtain ⟨hg, hpout⟩ := hff hp.2
          refine ⟨?_, hpout⟩
          intro s hsout m2 hm2 hcp
          rcases List.mem_cons.mp hm2 with heq | hm2r
          · exfalso
            apply ha s hsout
            have hsv : s.user.id = v.id := by rw [← hcp, heq, ← hv]
            rw [hsv]
            exact hvmem
          · exact hg s hsout m2 hm2r hcp
      · have hvnot : v.id ∉ seen := by simpa using hseen
        obtain ⟨tail, htail, ha, hnd, hcc, hdd, hff⟩ :=
          ih (v.id :: seen) hresR
        rw [hstep seen]
        rw [if_neg hseen]
        rw [htail]
        refine ⟨_, rfl, ?_, ?_, ?_, ?_, ?_⟩
        · intro s hsout
          rcases List.mem_cons.mp hsout with rfl | ht
          · exact hvnot
          · exact fun hmem => ha s ht (List.mem_cons_of_mem _ hmem)
        · rw [List.map_cons]
          refine List.nodup_cons.mpr ⟨?_, hnd⟩
          intro hmem
          obtain ⟨s, hst, hsid⟩ := List.mem_map.mp hmem
          exact ha s hst (by rw [hsid]; exact List.mem_cons_self _ _)
        · intro c
          rw [List.map_cons, List.mem_cons]
          constructor
          · rintro (rfl | hmem)
            · exact ⟨hvnot, m, List.mem_cons_self m rest, hv.symm⟩
            · obtain ⟨hns, m2, hm2, hcp⟩ := (hcc c).mp hmem
              exact ⟨fun hc => hns (List.mem_cons_of_mem _ hc), m2,
                List.mem_cons_of_mem _ hm2, hcp⟩
          · rintro ⟨hns, m2, hm2, hcp⟩
            by_cases hcv : c = v.id
            · exact Or.inl hcv
            · refine Or.inr ((hcc c).mpr ⟨?_, ?_⟩)
              · intro hc
                rcases List.mem_cons.mp hc with hc1 | hc2
                · exact hcv hc1
                · exact hns hc2
              · rcases List.mem_cons.mp hm2 with heq | hm2r
                · exfalso
                  apply hcv
                  rw [← hcp, heq, ← hv]
                · exact ⟨m2, hm2r, hcp⟩
        · intro s hsout
          rcases List.mem_cons.mp hsout with rfl | ht
          · exact ⟨m, List.mem_cons_self m rest, hv.symm, rfl, rfl, rfl⟩
          · obtain ⟨m2, hm2, hcp, hts, htx, hun⟩ := hdd s ht
            exact ⟨m2, List.mem_cons_of_mem _ hm2, hcp, hts, htx, hun⟩
        · intro hsort
          have hp := List.pairwise_cons.mp hsort
          obtain ⟨hg, hpt⟩ := hff hp.2
          constructor
          · intro s hsout m2 hm2 hcp
            rcases List.mem_cons.mp hsout with rfl | ht
            · rcases List.mem_cons.mp hm2 with heq | hm2r
              · rw [heq]
              · exact hp.1 m2 hm2r
            · rcases List.mem_cons.mp hm2 with heq | hm2r
              · exfalso
                apply ha s ht
                have hsv : s.user.id = v.id := by rw [← hcp, heq, ← hv]
                rw [hsv]
                exact List.mem_cons_self _ _
              · exact hg s ht m2 hm2r hcp
          · refine List.pairwise_cons.mpr ⟨?_, hpt⟩
            intro s hsout
            obtain ⟨m2, hm2, _, hts, _, _⟩ := hdd s hsout
            rw [hts]
            exact hp.1 m2 hm2
    by_cases hb : m.userId = uid
    · obtain ⟨v, hvfind⟩ := Option.isSome_iff_exists.mp hrr
      have hvid : v.id = m.recipientId :=
        findUser_eq_some_id users m.recipientId v hvfind
      have hcp : v.id = counterpartId uid m := by
        rw [hvid, counterpartId, if_pos hb]
      have hbeq : (u.id == uid) = true := by simp [huid, hb]
      refine key v true hcp ?_
      intro sn
      simp only [convLoop, hu, hbeq, if_true, hvfind]
    · have hcp : u.id = counterpartId uid m := by
        rw [huid, counterpartId, if_neg hb]
      have hbeq : (u.id == uid) = false := by simp [huid, hb]
      refine key u false hcp ?_
      intro sn
      simp only [convLoop, hu, hbeq, Bool.false_eq_true, if_false]

/-- C2: when every user referenced by the requester's direct messages
still resolves, aggregation succeeds and emits exactly one summary per
distinct counterpart (the summary ids are duplicate-free and a
counterpart appears exactly when some direct message of the requester
has it); each summary carries a message of that conversation whose
timestamp dominates every other message of the same counterpart (the
most recent one); summaries are ordered by descending recency; each
summary's `unreadCount` is the count of direct messages from that
counterpart to the requester whose `readBy` lacks the requester; and
after a mark-read pass that count is zero. -/
theorem C2_conversations_aggregation (uid : Nat) (users : List User)
    (store : List Msg)
    (hres : ∀ m ∈ store, involvesUser uid m = true →
      (findUser users m.userId).isSome = true ∧
      (findUser users m.recipientId).isSome = true) :
    (∃ l, getConversations uid users store = (store, .ok l) ∧
      ((l.map (fun s => s.user.id)).Nodup) ∧
      (∀ c, c ∈ l.map (fun s => s.user.id) ↔
        ∃ m ∈ store, involvesUser uid m = true ∧
          counterpartId uid m = c) ∧
      (∀ s ∈ l, ∃ m ∈ store, involvesUser uid m = true ∧
        counterpartId uid m = s.user.id ∧
        s.lastTimestamp = m.timestamp ∧ s.lastText = m.text ∧
        s.unreadCount = unreadFromTo store s.user.id uid ∧
        (∀ m2 ∈ store, involvesUser uid m2 = true →
          counterpartId uid m2 = s.user.id →
          m2.timestamp ≤ m.timestamp)) ∧
      l.Pairwise (fun a b => b.lastTimestamp ≤ a.lastTimestamp)) ∧
    (∀ c, unreadFromTo ((patchMarkRead uid c store).fst) c uid = 0) := by
  constructor
  · have hmem : ∀ m : Msg,
        m ∈ List.insertionSort tsDesc (store.filter (involvesUser uid)) ↔
          (m ∈ store ∧ involvesUser uid m = true) := by
      intro m
      rw [(List.perm_insertionSort tsDesc
        (store.filter (involvesUser uid))).mem_iff, List.mem_filter]
    have hres2 : ∀ m ∈ List.insertionSort tsDesc
        (store.filter (involvesUser uid)),
        (findUser users m.userId).isSome = true ∧
        (findUser users m.recipientId).isSome = true :=
      fun m hm => hres m ((hmem m).mp hm).1 ((hmem m).mp hm).2
    have hsort : List.Pairwise tsDesc
        (List.insertionSort tsDesc (store.filter (involvesUser uid))) :=
      List.sorted_insertionSort tsDesc _
    obtain ⟨out, hout, ha, hnd, hcc, hdd, hff⟩ :=
      convLoop_spec uid users store
        (List.insertionSort tsDesc (store.filter (involvesUser uid)))
        [] hres2
    obtain ⟨hg, hpair⟩ := hff hsort
    refine ⟨out, ?_, hnd, ?_, ?_, hpair⟩
    · simp only [getConversations]
      rw [hout]
    · intro c
      rw [hcc c]
      constructor
      · rintro ⟨-, m2, hm2, hcp⟩
        obtain ⟨hm2s, hinv⟩ := (hmem m2).mp hm2
        exact ⟨m2, hm2s, hinv, hcp⟩
      · rintro ⟨m2, hm2s, hinv, hcp⟩
        exact ⟨List.not_mem_nil c, m2, (hmem m2).mpr ⟨hm2s, hinv⟩, hcp⟩
    · intro s hs
      obtain ⟨m2, hm2, hcp, hts, htx, hun⟩ := hdd s hs
      obtain ⟨hm2s, hinv⟩ := (hmem m2).mp hm2
      refine ⟨m2, hm2s, hinv, hcp, hts, htx, hun, ?_⟩
      intro m3 hm3 hinv3 hcp3
      have hle := hg s hs m3 ((hmem m3).mpr ⟨hm3, hinv3⟩) hcp3
      rw [hts] at hle
      exact hle
  · intro c
    rw [unreadFromTo_markReadFilter]
    have hnil : ((patchMarkRead uid c store).fst).filter
        (markReadFilter uid c) = [] := by
      rw [List.filter_eq_nil_iff]
      intro m hm
      simp [markReadFilter_patch_false uid c store m hm]
    rw [hnil]
    rfl

/-- Witness for C2: with M1 (t=10) and M2 (t=20) between users 1 and 2,
`aggregate(1)` lists exactly user 2 with `lastMessage.timestamp = 20`;
three unread sends from 2 to 1 give unread count 3, and after the
mark-read pass the count for that counterpart is 0. -/
theorem C2_conversations_aggregation_witness :
    getConversations 1 demoUsers convStore =
      (convStore, .ok [{ user := bob, lastText := okCipher
                         lastTimestamp := 20, fromMe := false
                         unreadCount := 1 }]) ∧
    unreadFromTo unreadStore 2 1 = 3 ∧
    unreadFromTo ((patchMarkRead 1 2 unreadStore).fst) 2 1 = 0 :=
  ⟨rfl, rfl,
   (C2_conversations_aggregation 1 demoUsers unreadStore (by decide)).2 2⟩

end DirectMessages
